import Mathlib

/-!
Verification of the stem-mixing and mastering pipeline
(`scripts/process_track.py`).

The embedding models:
* pydub `AudioSegment` values as lists of real-valued samples together with a
  frame rate (`AudioSegment`);
* the gain utility `db_to_ratio` (line 35) over the reals;
* `trim_or_pad` (line 112), `mix_stems` (line 121) including its inner `safe`
  helper and the replacement branches;
* the ffmpeg mastering invocation built by `apply_mastering_ffmpeg`
  (lines 162-188): the filter chain as an ordered list of typed stages, the
  output arguments (`acodec`, `ac`, `ar`), and the error path that wraps the
  executor's stderr;
* the directory-clearing behaviour of `run_demucs` (lines 44-102) over an
  abstract directory listing.
-/

namespace ProcessTrack

/-- Gain utility (`db_to_ratio`, line 35): `10 ** (db / 20.0)`. -/
noncomputable def db_to_ratio (db : ℝ) : ℝ := (10 : ℝ) ^ (db / 20)

/-- A pydub `AudioSegment`: a buffer of samples at a frame rate.  Durations are
measured in samples (the code measures in milliseconds; the unit is uniform
throughout, so the arithmetic is identical). -/
structure AudioSegment where
  samples : List ℝ
  frame_rate : ℕ

namespace AudioSegment

/-- `len(seg)`. -/
def duration (s : AudioSegment) : ℕ := s.samples.length

/-- `AudioSegment.silent(duration=n, frame_rate=fr)`; pydub's default
`frame_rate` is 11025, passed explicitly at call sites that omit it. -/
def silent (n : ℕ) (fr : ℕ) : AudioSegment := ⟨List.replicate n 0, fr⟩

/-- `seg[:n]` — slicing keeps the leading `n` samples. -/
def slice (s : AudioSegment) (n : ℕ) : AudioSegment := ⟨s.samples.take n, s.frame_rate⟩

/-- `a + b` on two segments — pydub concatenation. -/
def append (a b : AudioSegment) : AudioSegment := ⟨a.samples ++ b.samples, a.frame_rate⟩

/-- `seg + db` with a number — pydub gain: every sample is scaled by the
linear ratio of `db` decibels. -/
noncomputable def apply_gain (s : AudioSegment) (db : ℝ) : AudioSegment :=
  ⟨s.samples.map (fun x => x * db_to_ratio db), s.frame_rate⟩

/-- `a.overlay(b)` — additive mix; the result keeps `a`'s length: where both
have samples they sum, past the end of `b` the samples of `a` are kept. -/
def overlay (a b : AudioSegment) : AudioSegment :=
  ⟨List.zipWith (fun x y => x + y) a.samples b.samples
      ++ a.samples.drop b.samples.length,
    a.frame_rate⟩

end AudioSegment

/-- `trim_or_pad` (lines 112-118): return unchanged at the target length,
truncate (dropping the tail) when longer, append silence when shorter. -/
def trim_or_pad (seg : AudioSegment) (target_ms : ℕ) : AudioSegment :=
  if seg.duration = target_ms then seg
  else if target_ms < seg.duration then seg.slice target_ms
  else seg.append (AudioSegment.silent (target_ms - seg.duration) seg.frame_rate)

/-- The list comprehension of `mix_stems` line 135: the present buffers among
the six roles, in order. -/
def segmentsOf (vocals drums bass other replace_vocals replace_instrumental :
    Option AudioSegment) : List AudioSegment :=
  [vocals, drums, bass, other, replace_vocals, replace_instrumental].filterMap id

/-- `mix_stems` (lines 121-159).  Raising `ValueError("No audio segments to
mix.")` is modelled as `Except.error`.  `gains_db` is the ordered 4-tuple
(vocals, drums, bass, other) of decibel gains. -/
noncomputable def mix_stems (vocals drums bass other replace_vocals replace_instrumental :
    Option AudioSegment) (gains_db : ℝ × ℝ × ℝ × ℝ) : Except String AudioSegment :=
  let segments := segmentsOf vocals drums bass other replace_vocals replace_instrumental
  if segments.isEmpty then Except.error "No audio segments to mix."
  else
    let target_len := (segments.map AudioSegment.duration).foldr max 0
    let safe : Option AudioSegment → AudioSegment := fun s =>
      match s with
      | some seg => trim_or_pad seg target_len
      | none => AudioSegment.silent target_len 11025
    let vocals_gain_db := gains_db.1
    let drums_gain_db := gains_db.2.1
    let bass_gain_db := gains_db.2.2.1
    let other_gain_db := gains_db.2.2.2
    let instrumental :=
      match replace_instrumental with
      | some _ => safe replace_instrumental
      | none =>
        let i0 := AudioSegment.silent target_len 11025
        let i1 := i0.overlay ((safe drums).apply_gain drums_gain_db)
        let i2 := i1.overlay ((safe bass).apply_gain bass_gain_db)
        i2.overlay ((safe other).apply_gain other_gain_db)
    let v :=
      match replace_vocals with
      | some _ => (safe replace_vocals).apply_gain vocals_gain_db
      | none =>
        match vocals with
        | some _ => (safe vocals).apply_gain vocals_gain_db
        | none => AudioSegment.silent target_len 11025
    Except.ok (instrumental.overlay v)

/-- One stage of the ffmpeg mastering filter chain (lines 172-177), as a typed
descriptor. -/
inductive FilterStage where
  | highpass (f : ℝ)
  | acompressor (threshold ratio attack release makeup : ℝ)
  | loudnorm (I TP LRA : ℝ)
  | alimiter (limit : ℝ)

/-- The filter chain of `apply_mastering_ffmpeg` (lines 170-177):
`highpass=f=20, acompressor=threshold=-18dB:ratio=3:attack=5:release=50:makeup=5,
loudnorm=I={target_lufs}:TP={limit_dbtp}:LRA=11, alimiter=limit={limit_linear}`
with `limit_dbtp = -1.0` and `limit_linear = db_to_ratio(limit_dbtp)`. -/
noncomputable def build_filter_chain (target_lufs : ℝ) : List FilterStage :=
  let limit_dbtp : ℝ := -1
  let limit_linear : ℝ := db_to_ratio limit_dbtp
  [FilterStage.highpass 20,
   FilterStage.acompressor (-18) 3 5 50 5,
   FilterStage.loudnorm target_lufs limit_dbtp 11,
   FilterStage.alimiter limit_linear]

/-- The executor invocation built by `apply_mastering_ffmpeg` (lines 179-184):
`ffmpeg.input(...).output(..., acodec="pcm_s16le", af=filter_chain, ac=2,
ar="44100")`. -/
structure FfmpegCall where
  input : String
  output : String
  acodec : String
  af : List FilterStage
  ac : ℕ
  ar : ℕ

/-- The arguments `apply_mastering_ffmpeg(input_wav, output_wav, target_lufs)`
passes to the executor. -/
noncomputable def apply_mastering_call (input_wav output_wav : String)
    (target_lufs : ℝ) : FfmpegCall :=
  { input := input_wav
    output := output_wav
    acodec := "pcm_s16le"
    af := build_filter_chain target_lufs
    ac := 2
    ar := 44100 }

/-- The pipeline configuration taken from the CLI (`main`, lines 191-212);
only the fields the mastering step could depend on. -/
structure Config where
  master_target_lufs : ℝ
  sample_rate : ℕ

/-- The mastering invocation the orchestrator makes (line 270):
`apply_mastering_ffmpeg(pre_master_wav, mastered_wav, master_target_lufs)` —
note that `sample_rate` is not passed. -/
noncomputable def main_mastering_call (cfg : Config) (pre_master_wav mastered_wav : String) :
    FfmpegCall :=
  apply_mastering_call pre_master_wav mastered_wav cfg.master_target_lufs

/-- The outcome of the external executor: exit code and captured stderr (the
decoded text; `none` models the `exc.stderr` being empty, line 187). -/
structure ExecOutcome where
  exit_code : ℤ
  stderr : Option String

/-- The error path of `apply_mastering_ffmpeg` (lines 178-188): a non-zero
executor exit raises `ffmpeg.Error`, which is re-raised as
`RuntimeError("FFmpeg mastering failed:\n" + stderr)`; a missing stderr is
replaced by `"No stderr captured."`. -/
def apply_mastering_result (outcome : ExecOutcome) : Except String Unit :=
  if outcome.exit_code = 0 then Except.ok ()
  else Except.error
    ("FFmpeg mastering failed:\n" ++ outcome.stderr.getD "No stderr captured.")

/-- The clearing loop of `run_demucs` (lines 47-51): iterate over the entries
of the separation directory and delete each one.  The first argument is the
iteration list, the second the directory contents being mutated. -/
def clear_loop : List String → List String → List String
  | [], dir => dir
  | e :: es, dir => clear_loop es (dir.erase e)

/-- The filesystem effect of `run_demucs` (lines 44-102) on the separation
directory: every pre-existing entry is deleted (lines 47-51), the separator
then writes its outputs under a model directory, and those outputs are moved
("flattened") into the directory root while the model directory is removed
(lines 90-100).  `stems_out` is the listing the separator produces for this
input file. -/
def run_demucs_fs (dir : List String) (stems_out : List String) : List String :=
  let cleared := clear_loop dir dir
  cleared ++ stems_out

/-! ## Auxiliary lemmas -/

theorem duration_silent (n fr : ℕ) : (AudioSegment.silent n fr).duration = n := by
  simp [AudioSegment.silent, AudioSegment.duration]

theorem duration_overlay (a b : AudioSegment) : (a.overlay b).duration = a.duration := by
  simp only [AudioSegment.overlay, AudioSegment.duration, List.length_append,
    List.length_zipWith, List.length_drop]
  omega

theorem duration_apply_gain (s : AudioSegment) (db : ℝ) :
    (s.apply_gain db).duration = s.duration := by
  simp [AudioSegment.apply_gain, AudioSegment.duration]

theorem duration_trim_or_pad (seg : AudioSegment) (n : ℕ) :
    (trim_or_pad seg n).duration = n := by
  unfold trim_or_pad
  split
  · assumption
  · split
    · next h1 h2 =>
        simp only [AudioSegment.slice, AudioSegment.duration, List.length_take] at *
        omega
    · next h1 h2 =>
        simp only [AudioSegment.append, AudioSegment.silent, AudioSegment.duration,
          List.length_append, List.length_replicate] at *
        omega

theorem trim_or_pad_of_duration_eq (seg : AudioSegment) (n : ℕ)
    (h : seg.duration = n) : trim_or_pad seg n = seg := by
  unfold trim_or_pad
  rw [if_pos h]

theorem segmentsOf_eq_nil_iff (v d b o rv ri : Option AudioSegment) :
    segmentsOf v d b o rv ri = [] ↔
      v = none ∧ d = none ∧ b = none ∧ o = none ∧ rv = none ∧ ri = none := by
  cases v <;> cases d <;> cases b <;> cases o <;> cases rv <;> cases ri <;>
    simp [segmentsOf]

theorem db_to_ratio_pos (db : ℝ) : 0 < db_to_ratio db :=
  Real.rpow_pos_of_pos (by norm_num) _

theorem db_to_ratio_neg_one_pow_twenty : db_to_ratio (-1) ^ (20 : ℕ) = 1 / 10 := by
  unfold db_to_ratio
  rw [← Real.rpow_natCast ((10 : ℝ) ^ ((-1 : ℝ) / 20)) 20,
    ← Real.rpow_mul (by norm_num : (0 : ℝ) ≤ 10),
    show ((-1 : ℝ) / 20 * ((20 : ℕ) : ℝ)) = -1 by push_cast; ring,
    Real.rpow_neg_one]
  norm_num

theorem db_to_ratio_neg_one_gt : (0.891250 : ℝ) < db_to_ratio (-1) := by
  apply lt_of_pow_lt_pow_left₀ 20 (le_of_lt (db_to_ratio_pos (-1)))
  rw [db_to_ratio_neg_one_pow_twenty]
  norm_num

theorem db_to_ratio_neg_one_lt : db_to_ratio (-1) < (0.891252 : ℝ) := by
  apply lt_of_pow_lt_pow_left₀ 20 (by norm_num : (0 : ℝ) ≤ 0.891252)
  rw [db_to_ratio_neg_one_pow_twenty]
  norm_num

theorem clear_loop_self : ∀ l : List String, clear_loop l l = []
  | [] => rfl
  | e :: es => by
      rw [clear_loop, List.erase_cons_head]
      exact clear_loop_self es

/-! ## Claim theorems -/

/-- C6: for every buffer `b` and every target duration `n`, the length of
`resize(b, n)` (`trim_or_pad`) equals `n` exactly, whether `n` is larger than,
smaller than, or equal to the length of `b`. -/
theorem trim_or_pad_duration_exact (b : AudioSegment) (n : ℕ) :
    (trim_or_pad b n).duration = n :=
  duration_trim_or_pad b n

/-- C7: `resize` (`trim_or_pad`) is idempotent: resizing the result of a
resize to the same target changes nothing, and in particular a buffer whose
length already equals the target is returned unchanged. -/
theorem trim_or_pad_idempotent (b : AudioSegment) (n : ℕ) :
    trim_or_pad (trim_or_pad b n) n = trim_or_pad b n :=
  trim_or_pad_of_duration_eq _ n (duration_trim_or_pad b n)

/-- C5: `mix_stems` fails with the empty-mix error if and only if all six
role buffers (vocals, drums, bass, other, replacement-vocals,
replacement-instrumental) are absent; with at least one present it does not
raise this error. -/
theorem mix_stems_empty_error_iff (v d b o rv ri : Option AudioSegment)
    (g : ℝ × ℝ × ℝ × ℝ) :
    mix_stems v d b o rv ri g = Except.error "No audio segments to mix." ↔
      v = none ∧ d = none ∧ b = none ∧ o = none ∧ rv = none ∧ ri = none := by
  rw [← segmentsOf_eq_nil_iff v d b o rv ri]
  unfold mix_stems
  by_cases h : segmentsOf v d b o rv ri = []
  · simp [h]
  · simp [h]

/-- C1: whenever at least one of the six role buffers is present, `mix_stems`
returns a mix whose duration equals the maximum duration among the present
input buffers. -/
theorem mix_stems_duration_eq_max (v d b o rv ri : Option AudioSegment)
    (g : ℝ × ℝ × ℝ × ℝ) (h : segmentsOf v d b o rv ri ≠ []) :
    ∃ mix, mix_stems v d b o rv ri g = Except.ok mix ∧
      mix.duration =
        ((segmentsOf v d b o rv ri).map AudioSegment.duration).foldr max 0 := by
  unfold mix_stems
  rw [if_neg (by simpa [List.isEmpty_iff] using h)]
  refine ⟨_, rfl, ?_⟩
  cases ri with
  | some r =>
      simp [duration_overlay, duration_trim_or_pad]
  | none =>
      simp [duration_overlay, duration_silent]

theorem mix_stems_duration_eq_max_witness :
    segmentsOf (some ⟨[0, 0], 44100⟩) none none none none none ≠ [] ∧
    ∃ mix, mix_stems (some ⟨[0, 0], 44100⟩) none none none none none (0, 0, 0, 0) =
        Except.ok mix ∧
      mix.duration =
        ((segmentsOf (some ⟨[0, 0], 44100⟩) none none none none none).map
          AudioSegment.duration).foldr max 0 :=
  ⟨by simp [segmentsOf],
    mix_stems_duration_eq_max (some ⟨[0, 0], 44100⟩) none none none none none
      (0, 0, 0, 0) (by simp [segmentsOf])⟩

/-- C2: when a replacement-instrumental buffer is supplied, the drums, bass
and other gains have no effect on the mix: two gain tuples that agree on the
vocals entry produce the same output. -/
theorem mix_stems_replacement_instrumental_authoritative
    (v d b o rv : Option AudioSegment) (ri : AudioSegment)
    (vg dg bg og dg' bg' og' : ℝ) :
    mix_stems v d b o rv (some ri) (vg, dg, bg, og) =
      mix_stems v d b o rv (some ri) (vg, dg', bg', og') := rfl

/-- C10: when both the separated vocals stem and the replacement vocals are
absent, the vocals gain has no effect on the mix: two gain tuples that agree
on the drums, bass and other entries produce the same output. -/
theorem mix_stems_vocals_gain_unused_when_absent
    (d b o ri : Option AudioSegment) (vg vg' dg bg og : ℝ) :
    mix_stems none d b o none ri (vg, dg, bg, og) =
      mix_stems none d b o none ri (vg', dg, bg, og) := rfl

/-- C4: for every target LUFS, the mastering chain handed to the executor has
exactly four stages in order — highpass at 20 Hz, compressor with threshold
-18 dB, ratio 3, attack 5, release 50, makeup 5, loudnorm at the given
target with TP = -1.0 and LRA = 11, and a limiter whose limit is the linear
ratio of -1.0 dBTP computed by the gain utility, which lies strictly between
0.891250 and 0.891252 (≈ 0.891251). -/
theorem build_filter_chain_four_stages (target_lufs : ℝ) :
    build_filter_chain target_lufs =
      [FilterStage.highpass 20,
       FilterStage.acompressor (-18) 3 5 50 5,
       FilterStage.loudnorm target_lufs (-1) 11,
       FilterStage.alimiter (db_to_ratio (-1))] ∧
    (build_filter_chain target_lufs).length = 4 ∧
    (0.891250 : ℝ) < db_to_ratio (-1) ∧ db_to_ratio (-1) < (0.891252 : ℝ) :=
  ⟨rfl, rfl, db_to_ratio_neg_one_gt, db_to_ratio_neg_one_lt⟩

/-- C3: the mastering invocation forces 16-bit PCM and 2 channels, but pins
the output rate to 44100 Hz even when the pipeline's configured sample rate
differs (here 48000): the code never passes `sample_rate` into
`apply_mastering_ffmpeg`, contradicting the configurable output rate the CLI
documents. -/
theorem main_mastering_call_ar_hardcoded :
    (main_mastering_call ⟨-10, 48000⟩ "premaster.wav" "final.wav").acodec =
        "pcm_s16le" ∧
    (main_mastering_call ⟨-10, 48000⟩ "premaster.wav" "final.wav").ac = 2 ∧
    (main_mastering_call ⟨-10, 48000⟩ "premaster.wav" "final.wav").ar = 44100 ∧
    (Config.mk (-10) 48000).sample_rate ≠
      (main_mastering_call ⟨-10, 48000⟩ "premaster.wav" "final.wav").ar :=
  ⟨rfl, rfl, rfl, by decide⟩

/-- C8: whenever the executor exits non-zero with captured stderr `s`, the
mastering step fails with an error whose message is the fixed prefix
`"FFmpeg mastering failed:\n"` followed by `s` itself, so the diagnostic text
is preserved verbatim (it is a suffix of the error message). -/
theorem apply_mastering_stderr_verbatim (outcome : ExecOutcome) (s : String)
    (h : outcome.exit_code ≠ 0) (hs : outcome.stderr = some s) :
    apply_mastering_result outcome =
      Except.error ("FFmpeg mastering failed:\n" ++ s) ∧
    List.IsSuffix s.data ("FFmpeg mastering failed:\n" ++ s).data := by
  refine ⟨?_, ?_⟩
  · simp [apply_mastering_result, h, hs]
  · rw [String.data_append]
    exact List.suffix_append _ _

theorem apply_mastering_stderr_verbatim_witness :
    apply_mastering_result ⟨1, some "boom"⟩ =
      Except.error ("FFmpeg mastering failed:\n" ++ "boom") ∧
    List.IsSuffix ("boom" : String).data
      ("FFmpeg mastering failed:\n" ++ "boom").data :=
  apply_mastering_stderr_verbatim ⟨1, some "boom"⟩ "boom" (by decide) rfl

/-- C9: `run_demucs` clears every pre-existing entry of the separation
directory before the separator runs, so after a second run into the same
directory the listing is exactly the second run's output — no file produced
by the first run survives. -/
theorem run_demucs_second_run_only (dir stems_out1 stems_out2 : List String) :
    run_demucs_fs (run_demucs_fs dir stems_out1) stems_out2 = stems_out2 := by
  simp [run_demucs_fs, clear_loop_self]

end ProcessTrack
